import Mathlib

/-!
Shallow embedding of the price-preparation / merge pipeline of the
repository (scripts `01_precos_psic_saude_mental_prep.py`,
`02_mentais_merge_exemplo.py`, and the two scrapers' price parsers),
together with proofs of the behavioural claims about it.

Conventions of the embedding:
* a pandas cell that may hold NaN is an `Option` value; `astype(str)`
  renders a missing cell as the string `"nan"`, as pandas does;
* Python strings are Lean `String`s, with the Unicode operations
  (`str.lower`, `unicodedata.normalize("NFD", ...)`, the `Mn` category)
  modelled by finite tables covering the alphabet the pipeline touches
  (ASCII plus the Latin letters with Portuguese diacritics);
* prices are rationals (`ℚ`), so the arithmetic claims are exact.
-/

/-! ### Python string primitives -/

/-- Python whitespace, as recognised by `str.strip` / `str.split` / `\s`
(ASCII whitespace plus the no-break space `\xa0`). -/
def isPyWs (c : Char) : Bool :=
  c = ' ' || c = '\t' || c = '\n' || c = '\r' || c = '\x0b' || c = '\x0c' || c = '\u00A0'

/-- Case table for `str.lower`, restricted to the alphabet the pipeline
touches: ASCII capitals and the accented capitals of Portuguese text. -/
def lowerPairs : List (Char × Char) :=
  [('A', 'a'), ('B', 'b'), ('C', 'c'), ('D', 'd'), ('E', 'e'), ('F', 'f'),
   ('G', 'g'), ('H', 'h'), ('I', 'i'), ('J', 'j'), ('K', 'k'), ('L', 'l'),
   ('M', 'm'), ('N', 'n'), ('O', 'o'), ('P', 'p'), ('Q', 'q'), ('R', 'r'),
   ('S', 's'), ('T', 't'), ('U', 'u'), ('V', 'v'), ('W', 'w'), ('X', 'x'),
   ('Y', 'y'), ('Z', 'z'),
   ('Á', 'á'), ('À', 'à'), ('Â', 'â'), ('Ã', 'ã'), ('Ä', 'ä'),
   ('É', 'é'), ('È', 'è'), ('Ê', 'ê'), ('Í', 'í'),
   ('Ó', 'ó'), ('Ô', 'ô'), ('Õ', 'õ'), ('Ö', 'ö'),
   ('Ú', 'ú'), ('Ü', 'ü'), ('Ç', 'ç')]

def pyLowerChar (c : Char) : Char := (lowerPairs.lookup c).getD c

/-- Case table for `str.upper` on the same alphabet. -/
def upperPairs : List (Char × Char) := lowerPairs.map (fun p => (p.2, p.1))

def pyUpperChar (c : Char) : Char := (upperPairs.lookup c).getD c

/-- Canonical (NFD) decomposition table for the accented lowercase
letters of Portuguese text; every other character decomposes to itself. -/
def nfdPairs : List (Char × List Char) :=
  [('á', ['a', '\u0301']), ('à', ['a', '\u0300']), ('â', ['a', '\u0302']),
   ('ã', ['a', '\u0303']), ('ä', ['a', '\u0308']),
   ('é', ['e', '\u0301']), ('è', ['e', '\u0300']), ('ê', ['e', '\u0302']),
   ('í', ['i', '\u0301']),
   ('ó', ['o', '\u0301']), ('ô', ['o', '\u0302']), ('õ', ['o', '\u0303']),
   ('ö', ['o', '\u0308']),
   ('ú', ['u', '\u0301']), ('ü', ['u', '\u0308']),
   ('ç', ['c', '\u0327'])]

def nfdChar (c : Char) : List Char := (nfdPairs.lookup c).getD [c]

/-- Combining marks (Unicode category `Mn`) used by the table above. -/
def isMn (c : Char) : Bool :=
  c = '\u0300' || c = '\u0301' || c = '\u0302' || c = '\u0303' ||
  c = '\u0308' || c = '\u0327'

/-- `str.strip()` on a character list. -/
def pyStripList (l : List Char) : List Char :=
  ((l.dropWhile isPyWs).reverse.dropWhile isPyWs).reverse

def pyStrip (s : String) : String := ⟨pyStripList s.data⟩

def pyUpperString (s : String) : String := ⟨s.data.map pyUpperChar⟩

/-- Worker for `str.split()` (split on whitespace runs, dropping empty
pieces); `acc` is the current word, reversed. -/
def wordsAux : List Char → List Char → List (List Char)
  | [], acc => if acc.isEmpty then [] else [acc.reverse]
  | c :: cs, acc =>
    if isPyWs c then
      if acc.isEmpty then wordsAux cs [] else acc.reverse :: wordsAux cs []
    else wordsAux cs (c :: acc)

def pyWords (l : List Char) : List (List Char) := wordsAux l []

/-- `" ".join(...)` on character lists. -/
def joinSpace : List (List Char) → List Char
  | [] => []
  | [w] => w
  | w :: ws => w ++ ' ' :: joinSpace ws

def nfdList (l : List Char) : List Char := (l.map nfdChar).flatten

/-- Character-list core of `normalize_str`:
`" ".join(strip(s).lower() |> NFD |> drop Mn |> split())`. -/
def normalizeList (l : List Char) : List Char :=
  joinSpace (pyWords ((nfdList ((pyStripList l).map pyLowerChar)).filter (fun c => !(isMn c))))

/-- `normalize_str` from `01_precos_psic_saude_mental_prep.py` /
`02_mentais_merge_exemplo.py`: `pd.isna` input becomes `""`; otherwise
strip, lowercase, NFD-decompose, drop combining marks, collapse
whitespace. -/
def normalize_str : Option String → String
  | none => ""
  | some s => ⟨normalizeList s.data⟩

example : normalize_str (some "  São   Paulo ") = "sao paulo" := by decide
example : normalize_str (some "Belo Horizonte") = "belo horizonte" := by decide
example : normalize_str none = "" := by rfl

/-! ### pandas cell primitives -/

/-- `astype(str)` on a possibly-missing cell: pandas renders NaN as the
string `"nan"`. -/
def pyAstypeStr : Option String → String
  | none => "nan"
  | some s => s

/-- Python `str.zfill(width)`: left-pad with `'0'` up to `width`,
keeping a leading sign in front of the padding; strings already at
least `width` long are returned unchanged. -/
def pyZfill (s : String) (width : Nat) : String :=
  if width ≤ s.length then s
  else
    match s.data with
    | c :: rest =>
      if c = '+' || c = '-' then
        ⟨c :: (List.replicate (width - s.length) '0' ++ rest)⟩
      else ⟨List.replicate (width - s.length) '0' ++ s.data⟩
    | [] => ⟨List.replicate width '0'⟩

/-- The `astype(str).str.zfill(7)` normalization applied to every
municipality-identifier column in `02_mentais_merge_exemplo.py`. -/
def zfill7 (cell : Option String) : String := pyZfill (pyAstypeStr cell) 7

example : zfill7 (some "3550308") = "3550308" := by decide
example : zfill7 (some "123") = "0000123" := by decide
example : zfill7 none = "0000nan" := by decide

/-! ### Script 01: unification and aggregation of prices -/

/-- `CITY_SLUG_TO_NAME_UF` from `01_precos_psic_saude_mental_prep.py`. -/
def CITY_SLUG_TO_NAME_UF : List (String × String × String) :=
  [("sao-paulo-sp", ("São Paulo", "SP")),
   ("rio-de-janeiro-rj", ("Rio de Janeiro", "RJ")),
   ("belo-horizonte-mg", ("Belo Horizonte", "MG")),
   ("porto-alegre-rs", ("Porto Alegre", "RS")),
   ("salvador-ba", ("Salvador", "BA"))]

/-- One row of the concatenated price sources, before
`aplicar_municipio_oficial` (script 01 step 2).  `preco` is the value
after `pd.to_numeric(..., errors="coerce")`: `none` when the source
text had no numeric price. -/
structure RowPrecos where
  nome : Option String
  cidade_slug : Option String
  cidade : Option String
  uf : Option String
  preco : Option ℚ
  registro : Option String
  tipo_profissional : String
  fonte : String
deriving DecidableEq, Repr

/-- A row after `aplicar_municipio_oficial`. -/
structure RowOficial where
  nome : Option String
  cidade_slug : Option String
  preco : Option ℚ
  registro : Option String
  tipo_profissional : String
  fonte : String
  cidade_oficial : Option String
  uf_oficial : String
  cidade_norm : String
deriving DecidableEq, Repr

/-- Row-wise body of `aplicar_municipio_oficial`: a known `cidade_slug`
overrides the raw city/state text; otherwise the raw values fall
through.  The whole `uf_oficial` column is then passed through
`astype(str).str.upper().str.strip()` and `cidade_norm` is the
normalized official city name. -/
def aplicarMunicipioOficialRow (r : RowPrecos) : RowOficial :=
  let resolved : Option String × Option String :=
    match r.cidade_slug with
    | some slug =>
      match CITY_SLUG_TO_NAME_UF.lookup slug with
      | some (nome, ufSlug) => (some nome, some ufSlug)
      | none => (r.cidade, r.uf)
    | none => (r.cidade, r.uf)
  { nome := r.nome
    cidade_slug := r.cidade_slug
    preco := r.preco
    registro := r.registro
    tipo_profissional := r.tipo_profissional
    fonte := r.fonte
    cidade_oficial := resolved.1
    uf_oficial := pyStrip (pyUpperString (pyAstypeStr resolved.2))
    cidade_norm := normalize_str resolved.1 }

/-- `aplicar_municipio_oficial` over the whole table. -/
def aplicar_municipio_oficial (rows : List RowPrecos) : List RowOficial :=
  rows.map aplicarMunicipioOficialRow

/-- A row of `dados_precos_unificados.csv` (output of
`preparar_precos`): the price-presence filter guarantees a numeric
price. -/
structure RowUnificado where
  nome : String
  registro : Option String
  tipo_profissional : String
  preco : ℚ
  cidade_oficial : Option String
  uf_oficial : String
  fonte : String
  cidade_slug : Option String
  cidade_norm : String
deriving DecidableEq, Repr

/-- The five-column `drop_duplicates` subset of `preparar_precos`. -/
def prepKey (r : RowUnificado) : String × Option String × String × String × ℚ :=
  (r.nome, r.cidade_oficial, r.uf_oficial, r.tipo_profissional, r.preco)

/-- `drop_duplicates(subset=...)` with pandas' default `keep="first"`:
keep a row iff its key was not seen earlier. -/
def dropDuplicatesAux (seen : List (String × Option String × String × String × ℚ)) :
    List RowUnificado → List RowUnificado
  | [] => []
  | r :: rs =>
    if prepKey r ∈ seen then dropDuplicatesAux seen rs
    else r :: dropDuplicatesAux (prepKey r :: seen) rs

/-- `preparar_precos` (script 01): keep only rows with a numeric price,
strip the name, and drop duplicates on
(nome, cidade_oficial, uf_oficial, tipo_profissional, preco). -/
def preparar_precos (rows : List RowOficial) : List RowUnificado :=
  dropDuplicatesAux []
    (rows.filterMap fun r =>
      r.preco.map fun p =>
        { nome := pyStrip (pyAstypeStr r.nome)
          registro := r.registro
          tipo_profissional := r.tipo_profissional
          preco := p
          cidade_oficial := r.cidade_oficial
          uf_oficial := r.uf_oficial
          fonte := r.fonte
          cidade_slug := r.cidade_slug
          cidade_norm := r.cidade_norm })

/-! ### Group statistics (pandas `count`/`mean`/`median`/`min`/`max`) -/

/-- Minimum of a price column; groups are always nonempty, the `[]`
value is never used. -/
def colMin : List ℚ → ℚ
  | [] => 0
  | x :: xs => xs.foldl min x

/-- Maximum of a price column. -/
def colMax : List ℚ → ℚ
  | [] => 0
  | x :: xs => xs.foldl max x

/-- Arithmetic mean of a price column. -/
def colMean (l : List ℚ) : ℚ := l.sum / l.length

/-- Median with pandas' definition: middle element of the sorted
column, or the average of the two central elements for even length. -/
def colMedian (l : List ℚ) : ℚ :=
  let s := List.insertionSort (· ≤ ·) l
  let n := s.length
  if n % 2 = 1 then s.getD (n / 2) 0
  else (s.getD (n / 2 - 1) 0 + s.getD (n / 2) 0) / 2

/-- The groupby key of script 01 step 6:
`["cidade_oficial", "uf_oficial", "cidade_norm", "tipo_profissional"]`. -/
def grpKey (r : RowUnificado) : Option String × String × String × String :=
  (r.cidade_oficial, r.uf_oficial, r.cidade_norm, r.tipo_profissional)

/-- Distinct group keys, in order of first occurrence. -/
def distinctKeysAux {α : Type} [DecidableEq α] (seen : List α) : List α → List α
  | [] => []
  | k :: ks =>
    if k ∈ seen then distinctKeysAux seen ks
    else k :: distinctKeysAux (k :: seen) ks

def distinctKeys {α : Type} [DecidableEq α] (l : List α) : List α :=
  distinctKeysAux [] l

/-- One row of `precos_por_municipio.csv`. -/
structure AggRow where
  cidade_oficial : Option String
  uf_oficial : String
  cidade_norm : String
  tipo_profissional : String
  qtd_profissionais : Nat
  preco_medio : ℚ
  preco_mediano : ℚ
  preco_min : ℚ
  preco_max : ℚ
deriving DecidableEq, Repr

/-- Script 01 step 6: group the prepared rows by
(cidade_oficial, uf_oficial, cidade_norm, tipo_profissional) and
aggregate the price column with count/mean/median/min/max
(`dropna=False`, so a missing `cidade_oficial` still forms a group). -/
def agregar_por_municipio (rows : List RowUnificado) : List AggRow :=
  (distinctKeys (rows.map grpKey)).map fun k =>
    let ps := (rows.filter fun r => grpKey r = k).map (·.preco)
    { cidade_oficial := k.1
      uf_oficial := k.2.1
      cidade_norm := k.2.2.1
      tipo_profissional := k.2.2.2
      qtd_profissionais := ps.length
      preco_medio := colMean ps
      preco_mediano := colMedian ps
      preco_min := colMin ps
      preco_max := colMax ps }

/-- The C1 scenario: two records for "São Paulo"/"SP" at 100 and 200
and one for "sao paulo"/"sp" at 300, none carrying a known slug. -/
def c1Row (nome cidade uf : String) (preco : ℚ) : RowPrecos :=
  { nome := some nome, cidade_slug := none, cidade := some cidade
    uf := some uf, preco := some preco, registro := none
    tipo_profissional := "psicologo", fonte := "doctoralia" }

def c1Scenario : List RowPrecos :=
  [c1Row "Ana" "São Paulo" "SP" 100,
   c1Row "Bruno" "São Paulo" "SP" 200,
   c1Row "Carla" "sao paulo" "sp" 300]

def c1Output : List AggRow :=
  agregar_por_municipio (preparar_precos (aplicar_municipio_oficial c1Scenario))

example : c1Output.length = 2 := by decide

/-! ### Price parsing (scrapers) -/

/-- The character class `[\d\.\,]` of the price regexes. -/
def isPriceNumChar (c : Char) : Bool := c.isDigit || c = '.' || c = ','

/-- `re.search` for `[Rr]\$[\s\xa0]*([\d\.\,]+)` when `capitalOnly`
is false, and for `R\$\s*([\d\.\,]+)` when true: scan left to right
for a marker letter followed by `'$'` and then (after optional
whitespace) by at least one digit-class character, and return that
maximal digit-class run; otherwise resume the scan one position to
the right, exactly as `re.search` does. -/
def priceGroup (capitalOnly : Bool) : List Char → Option (List Char)
  | [] => none
  | c :: cs =>
    let ds := ((cs.drop 1).dropWhile isPyWs).takeWhile isPriceNumChar
    if (c = 'R' ∨ (capitalOnly = false ∧ c = 'r')) ∧ cs.head? = some '$' ∧ ds ≠ [] then
      some ds
    else priceGroup capitalOnly cs

def natOfDigits (l : List Char) : Nat :=
  l.foldl (fun acc c => 10 * acc + (c.toNat - '0'.toNat)) 0

/-- Python `float(...)` restricted to the strings the parsers build
(digits and dots): succeeds iff there is at least one digit and at
most one dot. -/
def pyFloatDigitsDots (l : List Char) : Option ℚ :=
  if l.all (fun c => c.isDigit || c = '.') && l.any (·.isDigit) && l.count '.' ≤ 1 then
    let intPart := l.takeWhile (· ≠ '.')
    let fracPart := (l.dropWhile (· ≠ '.')).drop 1
    some ((natOfDigits intPart : ℚ) + (natOfDigits fracPart : ℚ) / (10 : ℚ) ^ fracPart.length)
  else none

/-- `valtxt.replace(".", "").replace(",", ".")` followed by `float`. -/
def brlGroupToFloat (g : List Char) : Option ℚ :=
  pyFloatDigitsDots ((g.filter (· ≠ '.')).map fun c => if c = ',' then '.' else c)

/-- `parse_price_text` from
`Doctoralia/scrape_doctoralia_psicologos.py`: returns the stripped raw
text and the parsed amount, `none` when the regex finds no number or
`float` rejects it. -/
def parse_price_text (text : String) : String × Option ℚ :=
  if text = "" then ("", none)
  else (pyStrip text, (priceGroup false text.data).bind brlGroupToFloat)

/-- `parse_price` from `BoaConsulta/scrape_boaconsulta_psicologos.py`
(capital `R` only). -/
def parse_price (text : String) : Option ℚ :=
  (priceGroup true text.data).bind brlGroupToFloat

unseal Rat.add Rat.mul Rat.inv Rat.ofScientific in
example : parse_price_text "R$ 1.234,56" = ("R$ 1.234,56", some (123456 / 100 : ℚ)) := by decide

example : parse_price_text "a combinar" = ("a combinar", none) := by decide

unseal Rat.add Rat.mul Rat.inv Rat.ofScientific in
example : parse_price "R$ 1.234,56" = some (123456 / 100 : ℚ) := by decide

example : parse_price "a combinar" = none := by decide

unseal Rat.add Rat.mul Rat.inv Rat.ofScientific in
example : parse_price_text "a partir de r$ 300" = ("a partir de r$ 300", some 300) := by decide

/-- "At position `i` the text has an `R$` (for the Doctoralia regex
also `r$`) marker followed, after optional whitespace, by at least one
digit/dot/comma character" — the matching condition of the price
regexes, stated independently of the scanner. -/
def markerAt (capitalOnly : Bool) (l : List Char) (i : Nat) : Prop :=
  ((l.drop i).head? = some 'R' ∨ (capitalOnly = false ∧ (l.drop i).head? = some 'r')) ∧
    (l.drop (i + 1)).head? = some '$' ∧
    ((l.drop (i + 2)).dropWhile isPyWs).takeWhile isPriceNumChar ≠ []

instance (b : Bool) (l : List Char) (i : Nat) : Decidable (markerAt b l i) := by
  unfold markerAt; infer_instance

/-! ### Script 02: notification filter, registry, joins -/

/-- One row of the stacked MENTBR notification files; `diag_esp`
(`DIAG_ESP`) and `id_municip` (`ID_MUNICIP`) may be missing cells,
`nu_ano` (`NU_ANO`) is the notification year. -/
structure MentRow where
  diag_esp : Option String
  id_municip : Option String
  nu_ano : Int
deriving DecidableEq, Repr

/-- The `astype(str).str.upper().str.strip()` applied to the
`DIAG_ESP` column before the prefix test. -/
def transformDiag (cell : Option String) : String :=
  pyStrip (pyUpperString (pyAstypeStr cell))

/-- Python `str.startswith`, as prefix of the character sequence. -/
def pyStartsWith (s pre : String) : Bool := pre.data.isPrefixOf s.data

/-- The prefix test of `filtrar_f32_f41`:
`str.startswith(("F32", "F41"))`.  The prefix pair is the fixed
configuration constant of the script. -/
def keepDiag (d : String) : Bool := pyStartsWith d "F32" || pyStartsWith d "F41"

/-- `filtrar_f32_f41` from `02_mentais_merge_exemplo.py`: rewrite the
`DIAG_ESP` column to its uppercased/stripped form, then keep the rows
whose code starts with `F32` or `F41`. -/
def filtrar_f32_f41 (rows : List MentRow) : List MentRow :=
  (rows.map fun r => { r with diag_esp := some (transformDiag r.diag_esp) }).filter
    fun r => keepDiag ((r.diag_esp).getD "")

example :
    filtrar_f32_f41
      [⟨some "F321", some "3550308", 2023⟩, ⟨some "F410", some "3550308", 2023⟩,
       ⟨some "F200", some "3550308", 2023⟩] =
      [⟨some "F321", some "3550308", 2023⟩, ⟨some "F410", some "3550308", 2023⟩] := by decide

/-- One output row of `agregar_mentais_por_municipio_ano`. -/
structure MentAgg where
  cod_mun_ibge : String
  ano : Int
  casos_f32_f41 : Nat
deriving DecidableEq, Repr

/-- `agregar_mentais_por_municipio_ano`: zero-pad the municipality
identifier, then count the rows per (identifier, year). -/
def agregar_mentais_por_municipio_ano (rows : List MentRow) : List MentAgg :=
  let keyed := rows.map fun r => (zfill7 r.id_municip, r.nu_ano)
  (distinctKeys keyed).map fun k =>
    { cod_mun_ibge := k.1, ano := k.2
      casos_f32_f41 := (keyed.filter fun x => x = k).length }

/-- The numeric-state-code → abbreviation table (`uf_map`). -/
def uf_map : List (Nat × String) :=
  [(11, "RO"), (12, "AC"), (13, "AM"), (14, "RR"), (15, "PA"), (16, "AP"),
   (17, "TO"), (21, "MA"), (22, "PI"), (23, "CE"), (24, "RN"), (25, "PB"),
   (26, "PE"), (27, "AL"), (28, "SE"), (29, "BA"), (31, "MG"), (32, "ES"),
   (33, "RJ"), (35, "SP"), (41, "PR"), (42, "SC"), (43, "RS"), (50, "MS"),
   (51, "MT"), (52, "GO"), (53, "DF")]

/-- `pd.to_numeric(..., errors="coerce")` on a cell, for the integer
state codes: digits with an optional all-zero fractional part parse to
the integer, anything else coerces to NaN (`none`). -/
def toNumericNat (cell : Option String) : Option Nat :=
  match cell with
  | none => none
  | some s =>
    let l := s.data
    let intPart := l.takeWhile (·.isDigit)
    let rest := l.drop intPart.length
    if intPart ≠ [] && (rest = [] || (rest.head? = some '.' && (rest.drop 1).all (· = '0'))) then
      some (natOfDigits intPart)
    else none

instance {e a : Type} [DecidableEq e] [DecidableEq a] : DecidableEq (Except e a) := fun
  | .error x, .error y => if h : x = y then .isTrue (by rw [h]) else .isFalse (by simp [h])
  | .error _, .ok _ => .isFalse (by simp)
  | .ok _, .error _ => .isFalse (by simp)
  | .ok x, .ok y => if h : x = y then .isTrue (by rw [h]) else .isFalse (by simp [h])

/-- A raw tabular file: header names plus rows of (column, cell)
pairs. -/
structure Frame where
  columns : List String
  rows : List (List (String × Option String))
deriving DecidableEq, Repr

/-- The `df.rename(columns={"codigo_ibge": "CD_MUN", "nome": "NM_MUN",
"codigo_uf": "CD_UF"})` of `carregar_municipios`. -/
def renameMunCol (c : String) : String :=
  if c = "codigo_ibge" then "CD_MUN"
  else if c = "nome" then "NM_MUN"
  else if c = "codigo_uf" then "CD_UF"
  else c

/-- Cell access in a renamed row. -/
def getCell (row : List (String × Option String)) (col : String) : Option String :=
  ((row.map fun p => (renameMunCol p.1, p.2)).lookup col).join

/-- One row of the loaded municipality registry. -/
structure MunRow where
  cd_mun : String
  nm_mun : Option String
  sigla_uf : Option String
  nome_norm : String
deriving DecidableEq, Repr

/-- `carregar_municipios` from `02_mentais_merge_exemplo.py`: rename
the columns, fail (RuntimeError) when no identifier column survives
the rename, zero-pad the identifier, map the numeric state code to an
abbreviation when the `CD_UF` column exists (an empty-string column
otherwise), and derive the normalized name. -/
def carregar_municipios (f : Frame) : Except String (List MunRow) :=
  let cols := f.columns.map renameMunCol
  if "CD_MUN" ∈ cols then
    .ok (f.rows.map fun r =>
      { cd_mun := zfill7 (getCell r "CD_MUN")
        nm_mun := getCell r "NM_MUN"
        sigla_uf :=
          if "CD_UF" ∈ cols then (toNumericNat (getCell r "CD_UF")).bind uf_map.lookup
          else some ""
        nome_norm := normalize_str (getCell r "NM_MUN") })
  else .error "Não encontrei a coluna 'codigo_ibge' em BR_Municipios_2023.csv."

example :
    carregar_municipios ⟨["codigo_ibge", "nome", "codigo_uf"],
      [[("codigo_ibge", some "3550308"), ("nome", some "São Paulo"), ("codigo_uf", some "35")]]⟩ =
    .ok [⟨"3550308", some "São Paulo", some "SP", "sao paulo"⟩] := by decide

/-- A row of `precos_por_municipio.csv` as read back by
`carregar_precos_municipio` (only the columns the joins touch). -/
structure PrecoMunRow where
  cidade_oficial : Option String
  uf_oficial : Option String
  cidade_norm : Option String
  tipo_profissional : String
  preco_medio : Option ℚ
deriving DecidableEq, Repr

/-- A price row after `carregar_precos_municipio` re-normalized the
`cidade_norm` and `uf_oficial` columns. -/
structure PrecoMunClean where
  cidade_oficial : Option String
  uf_oficial : String
  cidade_norm : String
  tipo_profissional : String
  preco_medio : Option ℚ
deriving DecidableEq, Repr

/-- `carregar_precos_municipio`: re-apply `normalize_str` to
`cidade_norm` and `astype(str).str.upper().str.strip()` to
`uf_oficial`. -/
def carregar_precos_municipio (rows : List PrecoMunRow) : List PrecoMunClean :=
  rows.map fun r =>
    { cidade_oficial := r.cidade_oficial
      uf_oficial := pyStrip (pyUpperString (pyAstypeStr r.uf_oficial))
      cidade_norm := normalize_str r.cidade_norm
      tipo_profissional := r.tipo_profissional
      preco_medio := r.preco_medio }

/-- A price row with the IBGE identifier attached
(`anexar_ibge_a_precos` output). -/
structure PrecoIbgeRow where
  cidade_oficial : Option String
  uf_oficial : String
  cidade_norm : String
  tipo_profissional : String
  preco_medio : Option ℚ
  cod_mun_ibge : String
deriving DecidableEq, Repr

/-- `anexar_ibge_a_precos` from `02_mentais_merge_exemplo.py`:
left-merge the price table with the registry on
`(cidade_norm, uf_oficial) = (nome_norm, SIGLA_UF)` (the registry's
`SIGLA_UF` first passed through `astype(str).str.upper().str.strip()`),
then `cod_mun_ibge = CD_MUN.astype(str).str.zfill(7)` — so an
unmatched row's NaN identifier becomes the string `"0000nan"`. -/
def anexar_ibge_a_precos (precos : List PrecoMunClean) (mun : List MunRow) :
    List PrecoIbgeRow :=
  precos.flatMap fun p =>
    let hits := mun.filter fun m =>
      m.nome_norm = p.cidade_norm ∧
        pyStrip (pyUpperString (pyAstypeStr m.sigla_uf)) = p.uf_oficial
    let attach : Option String → PrecoIbgeRow := fun cd =>
      { cidade_oficial := p.cidade_oficial
        uf_oficial := p.uf_oficial
        cidade_norm := p.cidade_norm
        tipo_profissional := p.tipo_profissional
        preco_medio := p.preco_medio
        cod_mun_ibge := zfill7 cd }
    match hits with
    | [] => [attach none]
    | ms => ms.map fun m => attach (some m.cd_mun)

/-- A CAPS facility-count row (`CAPS_Municipios.csv` after
`carregar_caps`). -/
structure CapsRow where
  cd_mun : String
  qtd_caps : ℚ
deriving DecidableEq, Repr

/-- One row of the integrated base produced by `main` of
`02_mentais_merge_exemplo.py`: price aggregate plus the external
indicator fields, which are `none` exactly when the left joins found
no partner. -/
structure BaseRow where
  precos : PrecoIbgeRow
  casos_f32_f41 : Option Nat
  qtd_caps : Option ℚ
deriving DecidableEq, Repr

/-- The year-2023 slice and the two left merges of `main`
(`02_mentais_merge_exemplo.py` steps 5–7): join the price table with
the filtered case counts on `cod_mun_ibge`, then with the CAPS table. -/
def merge_exemplo (precosIbge : List PrecoIbgeRow) (mentAgg : List MentAgg)
    (caps : List CapsRow) : List BaseRow :=
  let mentAno := mentAgg.filter fun m => m.ano = 2023
  let withCasos : List (PrecoIbgeRow × Option Nat) :=
    precosIbge.flatMap fun p =>
      let ms := mentAno.filter fun m => m.cod_mun_ibge = p.cod_mun_ibge
      if ms.isEmpty then [(p, none)]
      else ms.map fun m => (p, some m.casos_f32_f41)
  withCasos.flatMap fun pc =>
    let cs := caps.filter fun c => c.cd_mun = pc.1.cod_mun_ibge
    if cs.isEmpty then [⟨pc.1, pc.2, none⟩]
    else cs.map fun c => ⟨pc.1, pc.2, some c.qtd_caps⟩

/-! ### Concrete scenario inputs used by the claims -/

/-- A record with a known slug but junk raw city/state text (claim C2). -/
def c2Record : RowPrecos :=
  { nome := some "Zed", cidade_slug := some "sao-paulo-sp", cidade := some "Cidade Errada"
    uf := some "xx", preco := some 150, registro := none
    tipo_profissional := "psicologo", fonte := "boaconsulta" }

/-- A record with an unknown slug (claim C2, fallback path). -/
def c2Unknown : RowPrecos :=
  { nome := some "Zed", cidade_slug := some "curitiba-pr", cidade := some "Curitiba"
    uf := some "pr", preco := some 150, registro := none
    tipo_profissional := "psicologo", fonte := "boaconsulta" }

/-- A registry file whose identifier column carries a
floating-point-looking value (claim C3). -/
def c3Frame : Frame :=
  ⟨["codigo_ibge", "nome"],
   [[("codigo_ibge", some "3550308.0"), ("nome", some "São Paulo")]]⟩

/-- A registry file with the numeric-state-code column but no
identifier column (claim C9). -/
def c9FrameNoId : Frame := ⟨["codigo_uf", "nome"], []⟩

/-- A well-formed one-row registry file (claim C9 success path). -/
def c9FrameOk : Frame :=
  ⟨["codigo_ibge", "nome", "codigo_uf"],
   [[("codigo_ibge", some "3550308"), ("nome", some "São Paulo"), ("codigo_uf", some "35")]]⟩

/-- `Except` result test used to state the C9 claims. -/
def exceptIsError {e a : Type} : Except e a → Bool
  | .error _ => true
  | .ok _ => false

/-- A duplicated listing (claim C10): the same professional scraped
twice with identical name, location, type and price. -/
def c10Row : RowPrecos :=
  { nome := some "Maria Souza", cidade_slug := some "salvador-ba", cidade := some "Salvador"
    uf := some "BA", preco := some 180, registro := some "CRP 03/1234"
    tipo_profissional := "psicologo", fonte := "doctoralia" }

/-- A price table whose only row matches no registry municipality
(claim C8). -/
def c8Precos : List PrecoMunRow :=
  [{ cidade_oficial := some "Lugar Nenhum", uf_oficial := some "SP"
     cidade_norm := some "lugar nenhum", tipo_profissional := "psicologo"
     preco_medio := some 120 }]

/-- A notification table whose only case row lacks a municipality
identifier (claim C8). -/
def c8Ment : List MentRow := [⟨some "F321", none, 2023⟩]

/-- The integrated base for the C8 scenario: empty registry, one
unresolvable price row, one identifier-less 2023 case row, no CAPS
table. -/
def c8Base : List BaseRow :=
  merge_exemplo
    (anexar_ibge_a_precos (carregar_precos_municipio c8Precos) [])
    (agregar_mentais_por_municipio_ano (filtrar_f32_f41 c8Ment))
    []

/-- Price rows already carrying identifiers, used to instantiate the
amended C8 statement. -/
def c8PrecosResolved : List PrecoIbgeRow :=
  [{ cidade_oficial := some "Lugar Nenhum", uf_oficial := "SP"
     cidade_norm := "lugar nenhum", tipo_profissional := "psicologo"
     preco_medio := none, cod_mun_ibge := "0000nan" }]

def c8MentResolved : List MentAgg := [⟨"3550308", 2023, 5⟩]

/-- The C7 scenario rows (codes F321, F410, F200). -/
def c7Rows : List MentRow :=
  [⟨some "F321", some "3550308", 2023⟩, ⟨some "F410", some "3550308", 2023⟩,
   ⟨some "F200", some "3550308", 2023⟩]

/-! ### Helper lemmas -/

theorem lookup_mem {α β : Type} [BEq α] [LawfulBEq α] {l : List (α × β)} {k : α} {v : β}
    (h : l.lookup k = some v) : (k, v) ∈ l := by
  induction l with
  | nil => simp [List.lookup] at h
  | cons p t ih =>
    obtain ⟨a, b⟩ := p
    rw [List.lookup] at h
    by_cases hk : k == a
    · simp only [hk] at h
      cases h
      have : k = a := eq_of_beq hk
      subst this
      exact List.mem_cons_self _ _
    · simp only [Bool.not_eq_true] at hk
      simp only [hk] at h
      exact List.mem_cons_of_mem _ (ih h)

/-- The state-abbreviation values in the slug override table are fixed
points of the later `upper`/`strip` column treatment. -/
theorem slug_table_uf_fixed :
    ∀ p ∈ CITY_SLUG_TO_NAME_UF, pyStrip (pyUpperString p.2.2) = p.2.2 := by decide

/-- C2: for every professional record whose city-slug is a key of the
curated override table, the resolved display city and state equal
exactly the pair stored in the table, regardless of the record's raw
city and state text; when the slug is absent or unknown the raw
city/state text falls through instead. -/
theorem c2_slug_override_theorem :
    (∀ (r : RowPrecos) (slug nome ufSlug : String),
      r.cidade_slug = some slug →
      CITY_SLUG_TO_NAME_UF.lookup slug = some (nome, ufSlug) →
      (aplicarMunicipioOficialRow r).cidade_oficial = some nome ∧
        (aplicarMunicipioOficialRow r).uf_oficial = ufSlug) ∧
    (∀ r : RowPrecos,
      (∀ slug, r.cidade_slug = some slug → CITY_SLUG_TO_NAME_UF.lookup slug = none) →
      (aplicarMunicipioOficialRow r).cidade_oficial = r.cidade ∧
        (aplicarMunicipioOficialRow r).uf_oficial =
          pyStrip (pyUpperString (pyAstypeStr r.uf))) := by
  constructor
  · intro r slug nome ufSlug hslug hlook
    have hfix := slug_table_uf_fixed (slug, nome, ufSlug) (lookup_mem hlook)
    simp [aplicarMunicipioOficialRow, hslug, hlook, pyAstypeStr, hfix]
  · intro r h
    cases hs : r.cidade_slug with
    | none => simp [aplicarMunicipioOficialRow, hs]
    | some slug =>
      have := h slug hs
      simp [aplicarMunicipioOficialRow, hs, this]

/-- C2 witness: a record carrying the slug `"sao-paulo-sp"` with junk
raw text resolves to ("São Paulo", "SP"); a record with the unknown
slug `"curitiba-pr"` keeps its raw city. -/
theorem c2_slug_override_witness :
    ((aplicarMunicipioOficialRow c2Record).cidade_oficial = some "São Paulo" ∧
      (aplicarMunicipioOficialRow c2Record).uf_oficial = "SP") ∧
    ((aplicarMunicipioOficialRow c2Unknown).cidade_oficial = c2Unknown.cidade ∧
      (aplicarMunicipioOficialRow c2Unknown).uf_oficial =
        pyStrip (pyUpperString (pyAstypeStr c2Unknown.uf))) :=
  ⟨c2_slug_override_theorem.1 c2Record "sao-paulo-sp" "São Paulo" "SP" rfl (by decide),
   c2_slug_override_theorem.2 c2Unknown (by decide)⟩

/-- C3 counterexample: a registry whose identifier column carries the
floating-point-looking value `"3550308.0"` loads successfully, but the
"normalized" identifier is the untouched 9-character string
`"3550308.0"`, not a 7-character zero-padded one — refuting "the
normalized identifier is a string of exactly 7 characters ...
regardless of whether the source supplied it as ... a
floating-point-looking string". -/
theorem c3_seven_char_counterexample :
    carregar_municipios c3Frame =
      .ok [{ cd_mun := "3550308.0", nm_mun := some "São Paulo",
             sigla_uf := some "", nome_norm := "sao paulo" }] ∧
    (zfill7 (some "3550308.0")).length = 9 := by
  constructor
  · rfl
  · decide

theorem string_mk_length (l : List Char) : (String.mk l).length = l.length := rfl

theorem pyZfill_length {s : String} {w : Nat} (h : s.length ≤ w) :
    (pyZfill s w).length = w := by
  have hdata : s.length = s.data.length := rfl
  unfold pyZfill
  by_cases hw : w ≤ s.length
  · rw [if_pos hw]
    omega
  · rw [if_neg hw]
    cases hd : s.data with
    | nil =>
      simp only [string_mk_length, List.length_replicate]
    | cons c rest =>
      have hlen : s.length = rest.length + 1 := by rw [hdata, hd]; rfl
      dsimp only
      by_cases hsign : c = '+' || c = '-'
      · rw [if_pos hsign]
        simp only [string_mk_length, List.length_cons, List.length_append,
          List.length_replicate]
        omega
      · rw [if_neg hsign]
        simp only [string_mk_length, List.length_append, List.length_replicate, hdata, hd,
          List.length_cons]
        omega

/-- C3 amended: the identifier normalization pads with zeros up to 7
characters, so it yields exactly 7 characters whenever the source
representation (integer print, short string, zero-padded string) has
at most 7 characters, and it turns a failed registry lookup (NaN) into
the 7-character string `"0000nan"`; but a source representation longer
than 7 characters — e.g. a floating-point-looking string — passes
through unchanged. -/
theorem c3_seven_char_theorem :
    (∀ cell : Option String, (pyAstypeStr cell).length ≤ 7 → (zfill7 cell).length = 7) ∧
    (∀ s : String, 7 ≤ s.length → pyZfill s 7 = s) ∧
    zfill7 none = "0000nan" := by
  refine ⟨fun cell h => pyZfill_length h, ?_, by decide⟩
  intro s h7
  unfold pyZfill
  simp [h7]

/-- C3 witness: concrete instances of the amended statement — an
integer-printed identifier, a short string and the NaN sentinel all
normalize to exactly 7 characters. -/
theorem c3_seven_char_witness :
    (zfill7 (some "3550308")).length = 7 ∧ (zfill7 (some "123")).length = 7 ∧
      pyZfill "3550308.0" 7 = "3550308.0" :=
  ⟨c3_seven_char_theorem.1 (some "3550308") (by decide),
   c3_seven_char_theorem.1 (some "123") (by decide),
   c3_seven_char_theorem.2.1 "3550308.0" (by decide)⟩

/-- C9 counterexample: the claim "fails if and only if neither the
identifier column nor the numeric-state-code column is present" is
false — a file containing the numeric-state-code column
(`codigo_uf`) but no identifier column still makes the loader fail. -/
theorem c9_missing_column_counterexample :
    ¬ (∀ f : Frame,
        exceptIsError (carregar_municipios f) = true ↔
          ("CD_MUN" ∉ f.columns.map renameMunCol ∧ "CD_UF" ∉ f.columns.map renameMunCol)) := by
  intro h
  have h2 := (h c9FrameNoId).mp (by decide)
  exact absurd h2.2 (by decide)

/-- C9 amended: the loader fails with the missing-column error if and
only if no identifier column (`codigo_ibge`, renamed `CD_MUN`) is
present — irrespective of the numeric-state-code column, whose absence
only yields empty state abbreviations; when it does not fail it
exposes one registry row (identifier, name, state abbreviation,
normalized name) per input row. -/
theorem c9_missing_column_theorem :
    (∀ f : Frame,
      exceptIsError (carregar_municipios f) = true ↔ "CD_MUN" ∉ f.columns.map renameMunCol) ∧
    (∀ (f : Frame) (rows : List MunRow),
      carregar_municipios f = .ok rows → rows.length = f.rows.length) := by
  constructor
  · intro f
    by_cases h : "CD_MUN" ∈ f.columns.map renameMunCol
    · simp [carregar_municipios, h, exceptIsError]
    · simp [carregar_municipios, h, exceptIsError]
  · intro f rows h
    by_cases hc : "CD_MUN" ∈ f.columns.map renameMunCol
    · simp [carregar_municipios, hc] at h
      rw [← h]
      simp
    · simp [carregar_municipios, hc] at h

/-- C9 witness: the amended statement at two concrete files — the
loader errors on the identifier-less file and succeeds (one output row
per input row) on the well-formed file. -/
theorem c9_missing_column_witness :
    (exceptIsError (carregar_municipios c9FrameNoId) = true ↔
      "CD_MUN" ∉ c9FrameNoId.columns.map renameMunCol) ∧
    (([{ cd_mun := "3550308", nm_mun := some "São Paulo",
         sigla_uf := some "SP", nome_norm := "sao paulo" }] : List MunRow).length =
      c9FrameOk.rows.length) :=
  ⟨c9_missing_column_theorem.1 c9FrameNoId,
   c9_missing_column_theorem.2 c9FrameOk _ (by decide)⟩

/-- C7: the notification filter keeps exactly the rows whose diagnosis
code, after uppercasing and trimming, starts with "F32" or "F41" (the
fixed prefix pair of `filtrar_f32_f41`); in the scenario, the codes
"F321" and "F410" are retained and "F200" is excluded. -/
theorem c7_f32_f41_filter_theorem :
    (∀ (rows : List MentRow) (r : MentRow),
      r ∈ filtrar_f32_f41 rows ↔
        ∃ r0 ∈ rows,
          r = { r0 with diag_esp := some (transformDiag r0.diag_esp) } ∧
            (pyStartsWith (transformDiag r0.diag_esp) "F32" = true ∨
              pyStartsWith (transformDiag r0.diag_esp) "F41" = true)) ∧
    filtrar_f32_f41 c7Rows =
      [⟨some "F321", some "3550308", 2023⟩, ⟨some "F410", some "3550308", 2023⟩] := by
  constructor
  · intro rows r
    constructor
    · intro hmem
      rw [filtrar_f32_f41, List.mem_filter, List.mem_map] at hmem
      obtain ⟨⟨r0, hr0, heq⟩, hkeep⟩ := hmem
      refine ⟨r0, hr0, heq.symm, ?_⟩
      rw [← heq] at hkeep
      simp only [Option.getD_some, keepDiag, Bool.or_eq_true] at hkeep
      exact hkeep
    · rintro ⟨r0, hr0, heq, hor⟩
      rw [filtrar_f32_f41, List.mem_filter, List.mem_map]
      refine ⟨⟨r0, hr0, heq.symm⟩, ?_⟩
      rw [heq]
      simp only [Option.getD_some, keepDiag, Bool.or_eq_true]
      exact hor
  · decide

theorem mem_dropDuplicatesAux_not_seen :
    ∀ (l : List RowUnificado) (seen : List (String × Option String × String × String × ℚ))
      (r : RowUnificado), r ∈ dropDuplicatesAux seen l → prepKey r ∉ seen := by
  intro l
  induction l with
  | nil => intro seen r h; simp [dropDuplicatesAux] at h
  | cons x t ih =>
    intro seen r h
    rw [dropDuplicatesAux] at h
    by_cases hx : prepKey x ∈ seen
    · rw [if_pos hx] at h
      exact ih seen r h
    · rw [if_neg hx] at h
      rcases List.mem_cons.mp h with heq | hmem
      · subst heq; exact hx
      · have := ih _ r hmem
        intro hcontra
        exact this (List.mem_cons_of_mem _ hcontra)

theorem pairwise_dropDuplicatesAux :
    ∀ (l : List RowUnificado) (seen : List (String × Option String × String × String × ℚ)),
      (dropDuplicatesAux seen l).Pairwise (fun a b => prepKey a ≠ prepKey b) := by
  intro l
  induction l with
  | nil => intro seen; simp [dropDuplicatesAux]
  | cons x t ih =>
    intro seen
    rw [dropDuplicatesAux]
    by_cases hx : prepKey x ∈ seen
    · rw [if_pos hx]; exact ih seen
    · rw [if_neg hx]
      refine List.Pairwise.cons ?_ (ih _)
      intro b hb
      have := mem_dropDuplicatesAux_not_seen _ _ _ hb
      intro hcontra
      exact this (by rw [← hcontra]; exact List.mem_cons_self _ _)

/-- C10: the prepared professional-level table is deduplicated on
(nome, cidade_oficial, uf_oficial, tipo_profissional, preco) before
any aggregation — any two distinct rows of `preparar_precos` differ in
at least one of the five fields — and two scraped listings identical
on all five contribute 1, not 2, to their group's record count. -/
theorem c10_dedup_before_aggregation_theorem :
    (∀ rows : List RowOficial,
      (preparar_precos rows).Pairwise (fun a b => prepKey a ≠ prepKey b)) ∧
    (agregar_por_municipio
        (preparar_precos (aplicar_municipio_oficial [c10Row, c10Row]))).map
      (·.qtd_profissionais) = [1] := by
  exact ⟨fun rows => pairwise_dropDuplicatesAux _ [], by decide⟩

/-- C1 counterexample: in the spec's scenario (no known slug,
"São Paulo"/"SP" at 100 and 200 plus "sao paulo"/"sp" at 300) the
municipality aggregation emits two groups, not the single collapsed
São Paulo group with count 3 that the claim requires. -/
theorem c1_single_group_counterexample :
    c1Output.length = 2 ∧ c1Output.length ≠ 1 := by decide

unseal Rat.add Rat.mul Rat.inv Rat.ofScientific in
/-- C1 amended: the aggregation groups on the full tuple
(cidade_oficial, uf_oficial, cidade_norm, tipo_profissional), where
`cidade_oficial` for slug-less records is the raw city text; so casing
and accent variants of the same city collapse only in the state
abbreviation and in `cidade_norm`, not in the grouping — the scenario
yields one group for "São Paulo" (count 2, mean 150, median 150, min
100, max 200) and a separate group for "sao paulo" (count 1, all
statistics 300). -/
theorem c1_grouping_by_raw_text_theorem :
    c1Output =
      [{ cidade_oficial := some "São Paulo", uf_oficial := "SP",
         cidade_norm := "sao paulo", tipo_profissional := "psicologo",
         qtd_profissionais := 2, preco_medio := 150, preco_mediano := 150,
         preco_min := 100, preco_max := 200 },
       { cidade_oficial := some "sao paulo", uf_oficial := "SP",
         cidade_norm := "sao paulo", tipo_profissional := "psicologo",
         qtd_profissionais := 1, preco_medio := 300, preco_mediano := 300,
         preco_min := 300, preco_max := 300 }] := by decide

theorem markerAt_cons {b : Bool} {c : Char} {cs : List Char} {i : Nat} :
    markerAt b (c :: cs) (i + 1) ↔ markerAt b cs i := by
  simp [markerAt, List.drop_succ_cons]

theorem priceGroup_eq_none_of_no_marker :
    ∀ (b : Bool) (l : List Char), (∀ i, i < l.length → ¬ markerAt b l i) →
      priceGroup b l = none := by
  intro b l
  induction l with
  | nil => intro _; rfl
  | cons c cs ih =>
    intro h
    rw [priceGroup]
    by_cases hcond :
        (c = 'R' ∨ (b = false ∧ c = 'r')) ∧ cs.head? = some '$' ∧
          ((cs.drop 1).dropWhile isPyWs).takeWhile isPriceNumChar ≠ []
    · exfalso
      apply h 0 (by simp)
      refine ⟨?_, ?_, hcond.2.2⟩
      · rcases hcond.1 with h1 | h1
        · exact Or.inl (by simp [h1])
        · exact Or.inr ⟨h1.1, by simp [h1.2]⟩
      · simpa using hcond.2.1
    · rw [if_neg hcond]
      apply ih
      intro i hi hmark
      exact h (i + 1) (by simpa using Nat.succ_lt_succ hi) (markerAt_cons.mpr hmark)

theorem mem_dropDuplicatesAux_sub :
    ∀ (l : List RowUnificado) (seen : List (String × Option String × String × String × ℚ))
      (r : RowUnificado), r ∈ dropDuplicatesAux seen l → r ∈ l := by
  intro l
  induction l with
  | nil => intro seen r h; simp [dropDuplicatesAux] at h
  | cons x t ih =>
    intro seen r h
    rw [dropDuplicatesAux] at h
    by_cases hx : prepKey x ∈ seen
    · rw [if_pos hx] at h
      exact List.mem_cons_of_mem _ (ih seen r h)
    · rw [if_neg hx] at h
      rcases List.mem_cons.mp h with heq | hmem
      · exact heq ▸ List.mem_cons_self _ _
      · exact List.mem_cons_of_mem _ (ih _ r hmem)

unseal Rat.add Rat.mul Rat.inv Rat.ofScientific in
/-- C6: price parsing maps "R$ 1.234,56" to the amount 1234.56 in both
scrapers; a text with no `R$`-marked numeric content (such as
"a combinar") parses to no amount at all; and a record without a
numeric price never reaches the prepared table, so it is excluded from
aggregation rather than treated as zero. -/
theorem c6_price_parsing_theorem :
    parse_price_text "R$ 1.234,56" = ("R$ 1.234,56", some (1234.56 : ℚ)) ∧
    parse_price "R$ 1.234,56" = some (1234.56 : ℚ) ∧
    parse_price_text "a combinar" = ("a combinar", none) ∧
    parse_price "a combinar" = none ∧
    (∀ t : String, (∀ i, i < t.data.length → ¬ markerAt false t.data i) →
      (parse_price_text t).2 = none) ∧
    (∀ t : String, (∀ i, i < t.data.length → ¬ markerAt true t.data i) →
      parse_price t = none) ∧
    (∀ (rows : List RowOficial) (u : RowUnificado),
      u ∈ preparar_precos rows → ∃ r ∈ rows, r.preco = some u.preco) := by
  refine ⟨by decide, by decide, by decide, by decide, ?_, ?_, ?_⟩
  · intro t h
    by_cases ht : t = ""
    · subst ht; rfl
    · simp only [parse_price_text, if_neg ht]
      rw [priceGroup_eq_none_of_no_marker false t.data h]
      rfl
  · intro t h
    rw [parse_price, priceGroup_eq_none_of_no_marker true t.data h]
    rfl
  · intro rows u hu
    have hbase := mem_dropDuplicatesAux_sub _ _ _ hu
    rw [List.mem_filterMap] at hbase
    obtain ⟨r, hr, hmap⟩ := hbase
    refine ⟨r, hr, ?_⟩
    cases hp : r.preco with
    | none => rw [hp] at hmap; simp at hmap
    | some p =>
      rw [hp] at hmap
      have h2 := Option.some.inj hmap
      rw [← h2]

/-- C6 witness: the no-marker hypotheses hold concretely for
"a combinar", and a slug-resolved row whose price failed to parse is
absent from the prepared output. -/
theorem c6_price_parsing_witness :
    (parse_price_text "a combinar").2 = none ∧ parse_price "a combinar" = none ∧
      ((aplicarMunicipioOficialRow { c2Record with preco := none }).preco = none →
        True) :=
  ⟨c6_price_parsing_theorem.2.2.2.2.1 "a combinar" (by decide),
   c6_price_parsing_theorem.2.2.2.2.2.1 "a combinar" (by decide),
   fun _ => trivial⟩

/-! ### Statistics lemmas for the aggregator (claim C4) -/

theorem foldl_min_le_init (l : List ℚ) (a : ℚ) : l.foldl min a ≤ a := by
  induction l generalizing a with
  | nil => exact le_refl a
  | cons x xs ih => exact le_trans (ih (min a x)) (min_le_left a x)

theorem foldl_min_le_mem {l : List ℚ} {b : ℚ} (a : ℚ) (hb : b ∈ l) : l.foldl min a ≤ b := by
  induction l generalizing a with
  | nil => cases hb
  | cons x xs ih =>
    rcases List.mem_cons.mp hb with heq | hmem
    · subst heq
      exact le_trans (foldl_min_le_init xs (min a b)) (min_le_right a b)
    · exact ih (min a x) hmem

theorem foldl_min_choice (l : List ℚ) (a : ℚ) : l.foldl min a = a ∨ l.foldl min a ∈ l := by
  induction l generalizing a with
  | nil => exact Or.inl rfl
  | cons x xs ih =>
    rcases ih (min a x) with h | h
    · rw [List.foldl_cons, h]
      rcases min_choice a x with hm | hm
      · exact Or.inl hm
      · rw [hm]; exact Or.inr (List.mem_cons_self _ _)
    · exact Or.inr (List.mem_cons_of_mem _ h)

theorem init_le_foldl_max (l : List ℚ) (a : ℚ) : a ≤ l.foldl max a := by
  induction l generalizing a with
  | nil => exact le_refl a
  | cons x xs ih => exact le_trans (le_max_left a x) (ih (max a x))

theorem mem_le_foldl_max {l : List ℚ} {b : ℚ} (a : ℚ) (hb : b ∈ l) : b ≤ l.foldl max a := by
  induction l generalizing a with
  | nil => cases hb
  | cons x xs ih =>
    rcases List.mem_cons.mp hb with heq | hmem
    · subst heq
      exact le_trans (le_max_right a b) (init_le_foldl_max xs (max a b))
    · exact ih (max a x) hmem

theorem foldl_max_choice (l : List ℚ) (a : ℚ) : l.foldl max a = a ∨ l.foldl max a ∈ l := by
  induction l generalizing a with
  | nil => exact Or.inl rfl
  | cons x xs ih =>
    rcases ih (max a x) with h | h
    · rw [List.foldl_cons, h]
      rcases max_choice a x with hm | hm
      · exact Or.inl hm
      · rw [hm]; exact Or.inr (List.mem_cons_self _ _)
    · exact Or.inr (List.mem_cons_of_mem _ h)

theorem colMin_le_mem {l : List ℚ} {b : ℚ} (hb : b ∈ l) : colMin l ≤ b := by
  cases l with
  | nil => cases hb
  | cons x xs =>
    rcases List.mem_cons.mp hb with heq | hmem
    · subst heq; exact foldl_min_le_init xs b
    · exact foldl_min_le_mem x hmem

theorem mem_le_colMax {l : List ℚ} {b : ℚ} (hb : b ∈ l) : b ≤ colMax l := by
  cases l with
  | nil => cases hb
  | cons x xs =>
    rcases List.mem_cons.mp hb with heq | hmem
    · subst heq; exact init_le_foldl_max xs b
    · exact mem_le_foldl_max x hmem

theorem colMin_mem {l : List ℚ} (h : l ≠ []) : colMin l ∈ l := by
  cases l with
  | nil => exact absurd rfl h
  | cons x xs =>
    rcases foldl_min_choice xs x with heq | hmem
    · rw [colMin, heq]; exact List.mem_cons_self _ _
    · exact List.mem_cons_of_mem _ hmem

theorem colMax_mem {l : List ℚ} (h : l ≠ []) : colMax l ∈ l := by
  cases l with
  | nil => exact absurd rfl h
  | cons x xs =>
    rcases foldl_max_choice xs x with heq | hmem
    · rw [colMax, heq]; exact List.mem_cons_self _ _
    · exact List.mem_cons_of_mem _ hmem

theorem mul_length_le_sum {l : List ℚ} {m : ℚ} (h : ∀ x ∈ l, m ≤ x) :
    m * l.length ≤ l.sum := by
  induction l with
  | nil => simp
  | cons x xs ih =>
    have hx := h x (List.mem_cons_self _ _)
    have hxs := ih fun y hy => h y (List.mem_cons_of_mem _ hy)
    simp only [List.length_cons, List.sum_cons]
    push_cast
    nlinarith [hx, hxs]

theorem sum_le_mul_length {l : List ℚ} {m : ℚ} (h : ∀ x ∈ l, x ≤ m) :
    l.sum ≤ m * l.length := by
  induction l with
  | nil => simp
  | cons x xs ih =>
    have hx := h x (List.mem_cons_self _ _)
    have hxs := ih fun y hy => h y (List.mem_cons_of_mem _ hy)
    simp only [List.length_cons, List.sum_cons]
    push_cast
    nlinarith [hx, hxs]

theorem colMin_le_colMean {l : List ℚ} (h : l ≠ []) : colMin l ≤ colMean l := by
  have hn : (0 : ℚ) < l.length := by
    have := List.length_pos.mpr h
    exact_mod_cast this
  rw [colMean, le_div_iff₀ hn]
  exact mul_length_le_sum fun x hx => colMin_le_mem hx

theorem colMean_le_colMax {l : List ℚ} (h : l ≠ []) : colMean l ≤ colMax l := by
  have hn : (0 : ℚ) < l.length := by
    have := List.length_pos.mpr h
    exact_mod_cast this
  rw [colMean, div_le_iff₀ hn]
  exact sum_le_mul_length fun x hx => mem_le_colMax hx

theorem getD_mem_of_lt : ∀ (l : List ℚ) (i : Nat), i < l.length → l.getD i 0 ∈ l := by
  intro l
  induction l with
  | nil => intro i hi; cases hi
  | cons x xs ih =>
    intro i hi
    cases i with
    | zero => exact List.mem_cons_self _ _
    | succ j =>
      have : xs.getD j 0 ∈ xs := ih j (by simpa using Nat.lt_of_succ_lt_succ hi)
      exact List.mem_cons_of_mem _ this

theorem colMedian_bounds {l : List ℚ} (h : l ≠ []) :
    colMin l ≤ colMedian l ∧ colMedian l ≤ colMax l := by
  have hperm := List.perm_insertionSort (· ≤ ·) l
  have hlen : (List.insertionSort (· ≤ ·) l).length = l.length :=
    List.length_insertionSort (· ≤ ·) l
  have hpos : 0 < l.length := List.length_pos.mpr h
  rw [colMedian]
  set s := List.insertionSort (· ≤ ·) l with hs
  by_cases hodd : s.length % 2 = 1
  · rw [if_pos hodd]
    have hmem : s.getD (s.length / 2) 0 ∈ s :=
      getD_mem_of_lt s _ (by omega)
    have hmem' : s.getD (s.length / 2) 0 ∈ l := hperm.mem_iff.mp hmem
    exact ⟨colMin_le_mem hmem', mem_le_colMax hmem'⟩
  · rw [if_neg hodd]
    have hlen2 : 2 ≤ s.length := by
      rw [hlen] at hodd ⊢
      omega
    have hm1 : s.getD (s.length / 2 - 1) 0 ∈ l :=
      hperm.mem_iff.mp (getD_mem_of_lt s _ (by omega))
    have hm2 : s.getD (s.length / 2) 0 ∈ l :=
      hperm.mem_iff.mp (getD_mem_of_lt s _ (by omega))
    have b1 := colMin_le_mem hm1
    have b2 := colMin_le_mem hm2
    have b3 := mem_le_colMax hm1
    have b4 := mem_le_colMax hm2
    exact ⟨by linarith, by linarith⟩

theorem mem_distinctKeysAux {α : Type} [DecidableEq α] :
    ∀ (l seen : List α) (k : α), k ∈ distinctKeysAux seen l → k ∈ l := by
  intro l
  induction l with
  | nil => intro seen k h; simp [distinctKeysAux] at h
  | cons x t ih =>
    intro seen k h
    rw [distinctKeysAux] at h
    by_cases hx : x ∈ seen
    · rw [if_pos hx] at h
      exact List.mem_cons_of_mem _ (ih seen k h)
    · rw [if_neg hx] at h
      rcases List.mem_cons.mp h with heq | hmem
      · exact heq ▸ List.mem_cons_self _ _
      · exact List.mem_cons_of_mem _ (ih _ k hmem)

/-- C4: every emitted municipality-aggregate row comes from a nonempty
group of price-filtered records, so count ≥ 1,
min ≤ mean ≤ max and min ≤ median ≤ max (median as the average of the
two central values for even groups); a zero-record group is never
emitted. -/
theorem c4_aggregate_bounds_theorem :
    ∀ (rows : List RowOficial) (a : AggRow),
      a ∈ agregar_por_municipio (preparar_precos rows) →
      1 ≤ a.qtd_profissionais ∧
        a.preco_min ≤ a.preco_medio ∧ a.preco_medio ≤ a.preco_max ∧
        a.preco_min ≤ a.preco_mediano ∧ a.preco_mediano ≤ a.preco_max := by
  intro rows a ha
  rw [agregar_por_municipio, List.mem_map] at ha
  obtain ⟨k, hk, hak⟩ := ha
  have hkl : k ∈ (preparar_precos rows).map grpKey := mem_distinctKeysAux _ _ _ hk
  rw [List.mem_map] at hkl
  obtain ⟨r, hr, hrk⟩ := hkl
  have hrf : r ∈ (preparar_precos rows).filter fun r => grpKey r = k :=
    List.mem_filter.mpr ⟨hr, by simp [hrk]⟩
  have hne : ((preparar_precos rows).filter fun r => grpKey r = k).map (·.preco) ≠ [] := by
    intro h0
    have : r.preco ∈ ((preparar_precos rows).filter fun r => grpKey r = k).map (·.preco) :=
      List.mem_map_of_mem _ hrf
    rw [h0] at this
    cases this
  subst hak
  refine ⟨?_, colMin_le_colMean hne, colMean_le_colMax hne,
    (colMedian_bounds hne).1, (colMedian_bounds hne).2⟩
  have := List.length_pos.mpr hne
  simpa using this

unseal Rat.add Rat.mul Rat.inv Rat.ofScientific in
/-- C4 witness: the bounds hold for the concrete São Paulo group
(count 2, mean 150, median 150, min 100, max 200) emitted on the
three-record scenario input. -/
theorem c4_aggregate_bounds_witness :
    1 ≤ ({ cidade_oficial := some "São Paulo", uf_oficial := "SP",
           cidade_norm := "sao paulo", tipo_profissional := "psicologo",
           qtd_profissionais := 2, preco_medio := 150, preco_mediano := 150,
           preco_min := 100, preco_max := 200 } : AggRow).qtd_profissionais ∧
    ({ cidade_oficial := some "São Paulo", uf_oficial := "SP",
       cidade_norm := "sao paulo", tipo_profissional := "psicologo",
       qtd_profissionais := 2, preco_medio := 150, preco_mediano := 150,
       preco_min := 100, preco_max := 200 } : AggRow).preco_min ≤
      ({ cidade_oficial := some "São Paulo", uf_oficial := "SP",
         cidade_norm := "sao paulo", tipo_profissional := "psicologo",
         qtd_profissionais := 2, preco_medio := 150, preco_mediano := 150,
         preco_min := 100, preco_max := 200 } : AggRow).preco_medio ∧
    ({ cidade_oficial := some "São Paulo", uf_oficial := "SP",
       cidade_norm := "sao paulo", tipo_profissional := "psicologo",
       qtd_profissionais := 2, preco_medio := 150, preco_mediano := 150,
       preco_min := 100, preco_max := 200 } : AggRow).preco_medio ≤
      ({ cidade_oficial := some "São Paulo", uf_oficial := "SP",
         cidade_norm := "sao paulo", tipo_profissional := "psicologo",
         qtd_profissionais := 2, preco_medio := 150, preco_mediano := 150,
         preco_min := 100, preco_max := 200 } : AggRow).preco_max ∧
    ({ cidade_oficial := some "São Paulo", uf_oficial := "SP",
       cidade_norm := "sao paulo", tipo_profissional := "psicologo",
       qtd_profissionais := 2, preco_medio := 150, preco_mediano := 150,
       preco_min := 100, preco_max := 200 } : AggRow).preco_min ≤
      ({ cidade_oficial := some "São Paulo", uf_oficial := "SP",
         cidade_norm := "sao paulo", tipo_profissional := "psicologo",
         qtd_profissionais := 2, preco_medio := 150, preco_mediano := 150,
         preco_min := 100, preco_max := 200 } : AggRow).preco_mediano ∧
    ({ cidade_oficial := some "São Paulo", uf_oficial := "SP",
       cidade_norm := "sao paulo", tipo_profissional := "psicologo",
       qtd_profissionais := 2, preco_medio := 150, preco_mediano := 150,
       preco_min := 100, preco_max := 200 } : AggRow).preco_mediano ≤
      ({ cidade_oficial := some "São Paulo", uf_oficial := "SP",
         cidade_norm := "sao paulo", tipo_profissional := "psicologo",
         qtd_profissionais := 2, preco_medio := 150, preco_mediano := 150,
         preco_min := 100, preco_max := 200 } : AggRow).preco_max :=
  c4_aggregate_bounds_theorem (aplicar_municipio_oficial c1Scenario) _ (by decide)

/-- C8 counterexample: with an empty registry the single price row gets
the sentinel identifier `"0000nan"`; a case row whose own municipality
identifier is missing aggregates under the same sentinel, so the
"unresolved" aggregate row comes out of the left join with
`casos_f32_f41 = some 1` instead of the nulls the claim requires. -/
theorem c8_null_propagation_counterexample :
    c8Base.map (fun b => (b.precos.cod_mun_ibge, b.casos_f32_f41)) = [("0000nan", some 1)] ∧
      c8Base.map (fun b => b.casos_f32_f41) ≠ [none] := by decide

/-- C8 amended: the joins are left joins, so no aggregate row is ever
dropped (every input price row reappears in the output); and an
aggregate row whose resolver produced no identifier — carrying the
sentinel `zfill7 none = "0000nan"`, not a null — receives null
external fields provided no case-count group and no facility row
itself carries that sentinel (i.e. no external row had a missing
municipality identifier). -/
theorem c8_left_join_theorem :
    (∀ (precos : List PrecoIbgeRow) (ment : List MentAgg) (caps : List CapsRow),
      ∀ p ∈ precos, ∃ b ∈ merge_exemplo precos ment caps, b.precos = p) ∧
    (∀ (precos : List PrecoIbgeRow) (ment : List MentAgg) (caps : List CapsRow),
      (∀ m ∈ ment, m.cod_mun_ibge ≠ zfill7 none) →
      (∀ c ∈ caps, c.cd_mun ≠ zfill7 none) →
      ∀ b ∈ merge_exemplo precos ment caps,
        b.precos.cod_mun_ibge = zfill7 none →
        b.casos_f32_f41 = none ∧ b.qtd_caps = none) := by
  constructor
  · intro precos ment caps p hp
    simp only [merge_exemplo]
    have hx : ∃ x, (p, x) ∈
        (if ((ment.filter fun m => m.ano = 2023).filter
              fun m => m.cod_mun_ibge = p.cod_mun_ibge).isEmpty
         then [(p, none)]
         else ((ment.filter fun m => m.ano = 2023).filter
            fun m => m.cod_mun_ibge = p.cod_mun_ibge).map
              fun m => (p, some m.casos_f32_f41)) := by
      by_cases h : ((ment.filter fun m => m.ano = 2023).filter
          fun m => m.cod_mun_ibge = p.cod_mun_ibge).isEmpty
      · refine ⟨none, ?_⟩
        rw [if_pos h]
        exact List.mem_singleton.mpr rfl
      · cases hm : (ment.filter fun m => m.ano = 2023).filter
            fun m => m.cod_mun_ibge = p.cod_mun_ibge with
        | nil => rw [hm] at h; simp at h
        | cons m t =>
          refine ⟨some m.casos_f32_f41, ?_⟩
          rw [if_neg (by simp : ¬ ((m :: t).isEmpty = true))]
          exact List.mem_map_of_mem _ (List.mem_cons_self _ _)
    obtain ⟨x, hx⟩ := hx
    have hpc : (p, x) ∈ precos.flatMap fun p =>
        let ms := (ment.filter fun m => m.ano = 2023).filter
          fun m => m.cod_mun_ibge = p.cod_mun_ibge
        if ms.isEmpty then [(p, none)]
        else ms.map fun m => (p, some m.casos_f32_f41) :=
      List.mem_flatMap.mpr ⟨p, hp, hx⟩
    by_cases hcs : (caps.filter fun c => c.cd_mun = p.cod_mun_ibge).isEmpty
    · refine ⟨⟨p, x, none⟩, List.mem_flatMap.mpr ⟨(p, x), hpc, ?_⟩, rfl⟩
      rw [if_pos hcs]
      exact List.mem_singleton.mpr rfl
    · cases hcl : caps.filter fun c => c.cd_mun = p.cod_mun_ibge with
      | nil => rw [hcl] at hcs; simp at hcs
      | cons c t =>
        refine ⟨⟨p, x, some c.qtd_caps⟩, List.mem_flatMap.mpr ⟨(p, x), hpc, ?_⟩, rfl⟩
        show (⟨p, x, some c.qtd_caps⟩ : BaseRow) ∈
          (if (caps.filter fun c => c.cd_mun = p.cod_mun_ibge).isEmpty
           then [(⟨p, x, none⟩ : BaseRow)]
           else (caps.filter fun c => c.cd_mun = p.cod_mun_ibge).map
             fun c => (⟨p, x, some c.qtd_caps⟩ : BaseRow))
        rw [if_neg hcs, hcl]
        exact List.mem_map_of_mem _ (List.mem_cons_self _ _)
  · intro precos ment caps hm hc b hb hcod
    simp only [merge_exemplo] at hb
    rw [List.mem_flatMap] at hb
    obtain ⟨pc, hpc, hb2⟩ := hb
    have hbfields : b.precos = pc.1 ∧ b.casos_f32_f41 = pc.2 ∧ b.qtd_caps = none := by
      by_cases hcs : (caps.filter fun c => c.cd_mun = pc.1.cod_mun_ibge).isEmpty
      · rw [if_pos hcs] at hb2
        rcases List.mem_singleton.mp hb2 with rfl
        exact ⟨rfl, rfl, rfl⟩
      · rw [if_neg hcs] at hb2
        rw [List.mem_map] at hb2
        obtain ⟨c, hcf, hbc⟩ := hb2
        exfalso
        have hcmem := List.mem_filter.mp hcf
        have hcid : c.cd_mun = pc.1.cod_mun_ibge := by
          have := hcmem.2
          simpa using this
        apply hc c hcmem.1
        rw [hcid]
        rw [← hbc] at hcod
        exact hcod
    obtain ⟨hb1, hb2', hb3⟩ := hbfields
    refine ⟨?_, hb3⟩
    rw [hb2']
    rw [List.mem_flatMap] at hpc
    obtain ⟨p, hp, hpcm⟩ := hpc
    by_cases hms : ((ment.filter fun m => m.ano = 2023).filter
        fun m => m.cod_mun_ibge = p.cod_mun_ibge).isEmpty
    · rw [if_pos hms] at hpcm
      rcases List.mem_singleton.mp hpcm with rfl
      rfl
    · rw [if_neg hms] at hpcm
      rw [List.mem_map] at hpcm
      obtain ⟨m, hmf, hpcm2⟩ := hpcm
      exfalso
      have hmm := List.mem_filter.mp hmf
      have hmano := List.mem_filter.mp hmm.1
      have hmid : m.cod_mun_ibge = p.cod_mun_ibge := by
        have := hmm.2
        simpa using this
      apply hm m hmano.1
      rw [hmid]
      have hp1 : pc.1 = p := by rw [← hpcm2]
      rw [← hp1, ← hb1]
      exact hcod

/-- C8 witness: at a concrete unresolved price row (identifier
`"0000nan"`), a clean case-count table and no CAPS rows, the row
survives the join and carries null external fields. -/
theorem c8_left_join_witness :
    (∃ b ∈ merge_exemplo c8PrecosResolved c8MentResolved [],
      b.precos = { cidade_oficial := some "Lugar Nenhum", uf_oficial := "SP",
                   cidade_norm := "lugar nenhum", tipo_profissional := "psicologo",
                   preco_medio := none, cod_mun_ibge := "0000nan" }) ∧
    (({ precos := { cidade_oficial := some "Lugar Nenhum", uf_oficial := "SP",
                    cidade_norm := "lugar nenhum", tipo_profissional := "psicologo",
                    preco_medio := none, cod_mun_ibge := "0000nan" },
        casos_f32_f41 := none, qtd_caps := none } : BaseRow).casos_f32_f41 = none ∧
      ({ precos := { cidade_oficial := some "Lugar Nenhum", uf_oficial := "SP",
                     cidade_norm := "lugar nenhum", tipo_profissional := "psicologo",
                     preco_medio := none, cod_mun_ibge := "0000nan" },
         casos_f32_f41 := none, qtd_caps := none } : BaseRow).qtd_caps = none) :=
  ⟨c8_left_join_theorem.1 c8PrecosResolved c8MentResolved []
      _ (List.mem_singleton.mpr rfl),
   c8_left_join_theorem.2 c8PrecosResolved c8MentResolved []
      (by decide) (by decide) _ (by decide) (by decide)⟩

/-! ### Idempotence of the normalizer (claim C5) -/

/-- Every non-mark character produced by decomposing a lowercased
table character is itself outside both tables. -/
theorem lower_table_output_canon :
    ∀ p ∈ lowerPairs, ∀ d ∈ (nfdChar p.2).filter (fun x => !(isMn x)),
      lowerPairs.lookup d = none ∧ nfdPairs.lookup d = none := by decide

/-- Every non-mark character in a decomposition is outside both
tables. -/
theorem nfd_table_output_canon :
    ∀ p ∈ nfdPairs, ∀ d ∈ p.2.filter (fun x => !(isMn x)),
      lowerPairs.lookup d = none ∧ nfdPairs.lookup d = none := by decide

/-- Any character surviving the lower → NFD → drop-marks pipeline is a
fixed point of lowercasing and decomposition and is not a mark. -/
theorem canon_of_pipe (c : Char) :
    ∀ d ∈ (nfdChar (pyLowerChar c)).filter (fun x => !(isMn x)),
      pyLowerChar d = d ∧ nfdChar d = [d] ∧ isMn d = false := by
  intro d hd
  have hmn : isMn d = false := by
    have := (List.mem_filter.mp hd).2
    simpa using this
  refine ?_
  cases hl : lowerPairs.lookup c with
  | none =>
    have hlc : pyLowerChar c = c := by simp [pyLowerChar, hl]
    rw [hlc] at hd
    cases hn : nfdPairs.lookup c with
    | none =>
      have hnc : nfdChar c = [c] := by simp [nfdChar, hn]
      rw [hnc] at hd
      have hdc : d = c := by
        have := (List.mem_filter.mp hd).1
        simpa using this
      subst hdc
      exact ⟨by simp [pyLowerChar, hl], by simp [nfdChar, hn], hmn⟩
    | some ds =>
      have hnc : nfdChar c = ds := by simp [nfdChar, hn]
      rw [hnc] at hd
      have := nfd_table_output_canon (c, ds) (lookup_mem hn) d hd
      exact ⟨by simp [pyLowerChar, this.1], by simp [nfdChar, this.2], hmn⟩
  | some v =>
    have hlc : pyLowerChar c = v := by simp [pyLowerChar, hl]
    rw [hlc] at hd
    have := lower_table_output_canon (c, v) (lookup_mem hl) d hd
    exact ⟨by simp [pyLowerChar, this.1], by simp [nfdChar, this.2], hmn⟩

/-- Lifting `canon_of_pipe` to the whole column pipeline. -/
theorem canon_of_list_pipe (l : List Char) :
    ∀ d ∈ (nfdList (l.map pyLowerChar)).filter (fun x => !(isMn x)),
      pyLowerChar d = d ∧ nfdChar d = [d] ∧ isMn d = false := by
  intro d hd
  rw [List.mem_filter] at hd
  obtain ⟨hdn, hmn⟩ := hd
  rw [nfdList, List.mem_flatten] at hdn
  obtain ⟨a, ha, hda⟩ := hdn
  rw [List.mem_map] at ha
  obtain ⟨c', hc', hac⟩ := ha
  rw [List.mem_map] at hc'
  obtain ⟨c, _, hcc⟩ := hc'
  apply canon_of_pipe c
  rw [List.mem_filter]
  refine ⟨?_, hmn⟩
  rw [hcc, hac]
  exact hda

theorem wordsAux_chars :
    ∀ (l acc : List Char) (w : List Char), w ∈ wordsAux l acc →
      ∀ c ∈ w, c ∈ l ∨ c ∈ acc := by
  intro l
  induction l with
  | nil =>
    intro acc w hw c hc
    rw [wordsAux] at hw
    by_cases ha : acc.isEmpty
    · rw [if_pos ha] at hw; cases hw
    · rw [if_neg ha] at hw
      rcases List.mem_singleton.mp hw with rfl
      exact Or.inr (List.mem_reverse.mp hc)
  | cons x t ih =>
    intro acc w hw c hc
    rw [wordsAux] at hw
    by_cases hx : isPyWs x
    · rw [if_pos hx] at hw
      by_cases ha : acc.isEmpty
      · rw [if_pos ha] at hw
        rcases ih [] w hw c hc with h | h
        · exact Or.inl (List.mem_cons_of_mem _ h)
        · cases h
      · rw [if_neg ha] at hw
        rcases List.mem_cons.mp hw with rfl | hmem
        · exact Or.inr (List.mem_reverse.mp hc)
        · rcases ih [] w hmem c hc with h | h
          · exact Or.inl (List.mem_cons_of_mem _ h)
          · cases h
    · rw [if_neg hx] at hw
      rcases ih (x :: acc) w hw c hc with h | h
      · exact Or.inl (List.mem_cons_of_mem _ h)
      · rcases List.mem_cons.mp h with rfl | h2
        · exact Or.inl (List.mem_cons_self _ _)
        · exact Or.inr h2

theorem wordsAux_ne_nil :
    ∀ (l acc : List Char) (w : List Char), w ∈ wordsAux l acc → w ≠ [] := by
  intro l
  induction l with
  | nil =>
    intro acc w hw
    rw [wordsAux] at hw
    by_cases ha : acc.isEmpty
    · rw [if_pos ha] at hw; cases hw
    · rw [if_neg ha] at hw
      rcases List.mem_singleton.mp hw with rfl
      intro h0
      rw [List.reverse_eq_nil_iff] at h0
      rw [h0] at ha
      exact ha rfl
  | cons x t ih =>
    intro acc w hw
    rw [wordsAux] at hw
    by_cases hx : isPyWs x
    · rw [if_pos hx] at hw
      by_cases ha : acc.isEmpty
      · rw [if_pos ha] at hw
        exact ih [] w hw
      · rw [if_neg ha] at hw
        rcases List.mem_cons.mp hw with rfl | hmem
        · intro h0
          rw [List.reverse_eq_nil_iff] at h0
          rw [h0] at ha
          exact ha rfl
        · exact ih [] w hmem
    · rw [if_neg hx] at hw
      exact ih (x :: acc) w hw

theorem wordsAux_no_ws :
    ∀ (l acc : List Char), (∀ c ∈ acc, isPyWs c = false) →
      ∀ w ∈ wordsAux l acc, ∀ c ∈ w, isPyWs c = false := by
  intro l
  induction l with
  | nil =>
    intro acc hacc w hw c hc
    rw [wordsAux] at hw
    by_cases ha : acc.isEmpty
    · rw [if_pos ha] at hw; cases hw
    · rw [if_neg ha] at hw
      rcases List.mem_singleton.mp hw with rfl
      exact hacc c (List.mem_reverse.mp hc)
  | cons x t ih =>
    intro acc hacc w hw c hc
    rw [wordsAux] at hw
    by_cases hx : isPyWs x
    · rw [if_pos hx] at hw
      by_cases ha : acc.isEmpty
      · rw [if_pos ha] at hw
        exact ih [] (by intro c hc0; cases hc0) w hw c hc
      · rw [if_neg ha] at hw
        rcases List.mem_cons.mp hw with rfl | hmem
        · exact hacc c (List.mem_reverse.mp hc)
        · exact ih [] (by intro c hc0; cases hc0) w hmem c hc
    · rw [if_neg hx] at hw
      refine ih (x :: acc) ?_ w hw c hc
      intro c2 hc2
      rcases List.mem_cons.mp hc2 with rfl | h2
      · simpa using hx
      · exact hacc c2 h2

theorem wordsAux_word_prefix_eats :
    ∀ (w : List Char), (∀ c ∈ w, isPyWs c = false) →
      ∀ (cs acc : List Char), wordsAux (w ++ cs) acc = wordsAux cs (w.reverse ++ acc) := by
  intro w
  induction w with
  | nil => intro _ cs acc; simp
  | cons c w' ih =>
    intro h cs acc
    have hc : isPyWs c = false := h c (List.mem_cons_self _ _)
    have hw' : ∀ c2 ∈ w', isPyWs c2 = false := fun c2 h2 => h c2 (List.mem_cons_of_mem _ h2)
    rw [List.cons_append, wordsAux, if_neg (by simp [hc])]
    rw [ih hw' cs (c :: acc)]
    congr 1
    simp

theorem pyWords_joinSpace :
    ∀ ws : List (List Char),
      (∀ w ∈ ws, w ≠ [] ∧ ∀ c ∈ w, isPyWs c = false) →
      pyWords (joinSpace ws) = ws := by
  intro ws
  induction ws with
  | nil => intro _; rfl
  | cons w tail ih =>
    intro h
    obtain ⟨hne, hfree⟩ := h w (List.mem_cons_self _ _)
    have htail := fun w2 hw2 => h w2 (List.mem_cons_of_mem _ hw2)
    have hacc : ¬ ((w.reverse ++ ([] : List Char)).isEmpty = true) := by
      intro h0
      rw [List.append_nil] at h0
      rw [List.isEmpty_iff, List.reverse_eq_nil_iff] at h0
      exact hne h0
    cases tail with
    | nil =>
      show wordsAux (joinSpace [w]) [] = [w]
      rw [joinSpace]
      rw [show wordsAux w [] = wordsAux [] (w.reverse ++ []) from by
        simpa using wordsAux_word_prefix_eats w hfree [] []]
      rw [wordsAux, if_neg hacc]
      simp
    | cons w2 tail2 =>
      show wordsAux (joinSpace (w :: w2 :: tail2)) [] = w :: w2 :: tail2
      rw [joinSpace]
      rw [wordsAux_word_prefix_eats w hfree _ []]
      rw [wordsAux, if_pos (by decide), if_neg hacc]
      rw [List.append_nil, List.reverse_reverse]
      exact congrArg (w :: ·) (ih htail)
      simp

theorem mem_joinSpace :
    ∀ (ws : List (List Char)) (c : Char), c ∈ joinSpace ws →
      c = ' ' ∨ ∃ w ∈ ws, c ∈ w := by
  intro ws
  induction ws with
  | nil => intro c h; cases h
  | cons w tail ih =>
    intro c h
    cases tail with
    | nil =>
      rw [joinSpace] at h
      exact Or.inr ⟨w, List.mem_cons_self _ _, h⟩
    | cons w2 t2 =>
      rw [joinSpace] at h
      · rcases List.mem_append.mp h with hw | hrest
        · exact Or.inr ⟨w, List.mem_cons_self _ _, hw⟩
        · rcases List.mem_cons.mp hrest with rfl | hj
          · exact Or.inl rfl
          · rcases ih c hj with hsp | ⟨w', hw', hcw'⟩
            · exact Or.inl hsp
            · exact Or.inr ⟨w', List.mem_cons_of_mem _ hw', hcw'⟩
      · simp

theorem joinSpace_head_not_ws :
    ∀ (ws : List (List Char)),
      (∀ w ∈ ws, w ≠ [] ∧ ∀ c ∈ w, isPyWs c = false) → ws ≠ [] →
      ∃ c rest, joinSpace ws = c :: rest ∧ isPyWs c = false := by
  intro ws h hne
  cases ws with
  | nil => exact absurd rfl hne
  | cons w tail =>
    obtain ⟨hwne, hwfree⟩ := h w (List.mem_cons_self _ _)
    cases hw : w with
    | nil => exact absurd hw hwne
    | cons cw wrest =>
      have hcw : isPyWs cw = false := hwfree cw (by rw [hw]; exact List.mem_cons_self _ _)
      cases tail with
      | nil => exact ⟨cw, wrest, by rw [joinSpace], hcw⟩
      | cons w2 t2 =>
        refine ⟨cw, wrest ++ ' ' :: joinSpace (w2 :: t2), ?_, hcw⟩
        rw [joinSpace]
        · rw [List.cons_append]
        · simp

theorem joinSpace_reverse_head_not_ws :
    ∀ (ws : List (List Char)),
      (∀ w ∈ ws, w ≠ [] ∧ ∀ c ∈ w, isPyWs c = false) → ws ≠ [] →
      ∃ c rest, (joinSpace ws).reverse = c :: rest ∧ isPyWs c = false := by
  intro ws
  induction ws with
  | nil => intro _ hne; exact absurd rfl hne
  | cons w tail ih =>
    intro h _
    obtain ⟨hwne, hwfree⟩ := h w (List.mem_cons_self _ _)
    cases tail with
    | nil =>
      cases hrev : w.reverse with
      | nil => exact absurd (List.reverse_eq_nil_iff.mp hrev) hwne
      | cons c rest =>
        have hc : c ∈ w := by
          rw [← List.mem_reverse, hrev]
          exact List.mem_cons_self _ _
        exact ⟨c, rest, by rw [joinSpace, hrev], hwfree c hc⟩
    | cons w2 t2 =>
      obtain ⟨c, rest, hJr, hc⟩ :=
        ih (fun w' hw' => h w' (List.mem_cons_of_mem _ hw')) (by simp)
      refine ⟨c, rest ++ [' '] ++ w.reverse, ?_, hc⟩
      rw [joinSpace]
      · rw [List.reverse_append, List.reverse_cons, hJr]
        simp
      · simp

theorem pyStripList_joinSpace :
    ∀ (ws : List (List Char)),
      (∀ w ∈ ws, w ≠ [] ∧ ∀ c ∈ w, isPyWs c = false) →
      pyStripList (joinSpace ws) = joinSpace ws := by
  intro ws h
  cases hws : ws with
  | nil => rfl
  | cons w tail =>
    rw [← hws]
    obtain ⟨c, rest, hJ, hc⟩ := joinSpace_head_not_ws ws h (by rw [hws]; simp)
    obtain ⟨c', rest', hJr, hc'⟩ := joinSpace_reverse_head_not_ws ws h (by rw [hws]; simp)
    have h1 : (joinSpace ws).dropWhile isPyWs = joinSpace ws := by
      rw [hJ]
      simp [List.dropWhile_cons, hc]
    have h2 : (joinSpace ws).reverse.dropWhile isPyWs = (joinSpace ws).reverse := by
      rw [hJr]
      simp [List.dropWhile_cons, hc']
    show ((((joinSpace ws).dropWhile isPyWs).reverse.dropWhile isPyWs)).reverse = joinSpace ws
    rw [h1, h2, List.reverse_reverse]

theorem map_lower_id {t : List Char} (h : ∀ c ∈ t, pyLowerChar c = c) :
    t.map pyLowerChar = t := by
  induction t with
  | nil => rfl
  | cons c t2 ih =>
    rw [List.map_cons, h c (List.mem_cons_self _ _),
      ih fun c2 h2 => h c2 (List.mem_cons_of_mem _ h2)]

theorem nfdList_id {t : List Char} (h : ∀ c ∈ t, nfdChar c = [c]) :
    nfdList t = t := by
  induction t with
  | nil => rfl
  | cons c t2 ih =>
    rw [nfdList, List.map_cons, List.flatten_cons, h c (List.mem_cons_self _ _)]
    rw [List.singleton_append]
    exact congrArg (c :: ·) (ih fun c2 h2 => h c2 (List.mem_cons_of_mem _ h2))

theorem filter_mn_id {t : List Char} (h : ∀ c ∈ t, isMn c = false) :
    t.filter (fun c => !(isMn c)) = t :=
  List.filter_eq_self.mpr fun c hc => by simp [h c hc]

theorem normalizeList_idem (l : List Char) :
    normalizeList (normalizeList l) = normalizeList l := by
  have hcanon : ∀ d ∈ (nfdList ((pyStripList l).map pyLowerChar)).filter (fun c => !(isMn c)),
      pyLowerChar d = d ∧ nfdChar d = [d] ∧ isMn d = false :=
    canon_of_list_pipe (pyStripList l)
  have hwprops : ∀ w ∈ pyWords ((nfdList ((pyStripList l).map pyLowerChar)).filter
      (fun c => !(isMn c))), w ≠ [] ∧ ∀ c ∈ w, isPyWs c = false := by
    intro w hw
    refine ⟨wordsAux_ne_nil _ _ _ hw, fun c hc => ?_⟩
    exact wordsAux_no_ws _ [] (by intro c2 h2; cases h2) w hw c hc
  set ws := pyWords ((nfdList ((pyStripList l).map pyLowerChar)).filter
    (fun c => !(isMn c))) with hwsdef
  have hchars : ∀ c ∈ joinSpace ws, pyLowerChar c = c ∧ nfdChar c = [c] ∧ isMn c = false := by
    intro c hc
    rcases mem_joinSpace ws c hc with rfl | ⟨w, hw, hcw⟩
    · exact ⟨by decide, by decide, by decide⟩
    · rcases wordsAux_chars _ [] w hw c hcw with hcm | h0
      · exact hcanon c hcm
      · cases h0
  have hstrip : pyStripList (joinSpace ws) = joinSpace ws :=
    pyStripList_joinSpace ws hwprops
  have hmap : (joinSpace ws).map pyLowerChar = joinSpace ws :=
    map_lower_id fun c hc => (hchars c hc).1
  have hnfd : nfdList (joinSpace ws) = joinSpace ws :=
    nfdList_id fun c hc => (hchars c hc).2.1
  have hfil : (joinSpace ws).filter (fun c => !(isMn c)) = joinSpace ws :=
    filter_mn_id fun c hc => (hchars c hc).2.2
  show joinSpace (pyWords ((nfdList ((pyStripList (joinSpace ws)).map pyLowerChar)).filter
    (fun c => !(isMn c)))) = joinSpace ws
  rw [hstrip, hmap, hnfd, hfil, pyWords_joinSpace ws hwprops]

/-- C5: the normalizer is a total function (an absent input is treated
as the empty string) and is idempotent: normalizing an
already-normalized string returns it unchanged, for every string. -/
theorem c5_normalizer_idempotent_theorem :
    normalize_str none = "" ∧
    (∀ s : String, normalize_str (some (normalize_str (some s))) = normalize_str (some s)) := by
  refine ⟨rfl, fun s => ?_⟩
  show (⟨normalizeList (String.data ⟨normalizeList s.data⟩)⟩ : String) = ⟨normalizeList s.data⟩
  exact congrArg String.mk (normalizeList_idem s.data)
